import Mathlib

/-!
Verification of the speech-to-text typer (`src/main.py`) against its design
specification.  The Python source is shallowly embedded: the `APIKeyManager`
class becomes a structure with explicit state passing, `random.choice` becomes
an explicit choice parameter selecting an index, the Gemini API and the
external injection tools become environment parameters describing the outcome
of each external call, and the `feedback` notifications become an event trace.
-/

namespace SttTyper

/-- Membership test on a list of strings, modelling the `in` checks the Python
code performs on `self.api_keys` / `self.failed_keys`. -/
def memStr (x : String) : List String → Bool
  | [] => false
  | y :: t => if y = x then true else memStr x t

/-- Removal of every occurrence of a string, modelling `set.discard` on the
failed-key set (which the code only ever extends with keys not yet present). -/
def remStr (x : String) : List String → List String
  | [] => []
  | y :: t => if y = x then remStr x t else y :: remStr x t

theorem memStr_iff (x : String) (l : List String) : memStr x l = true ↔ x ∈ l := by
  induction l with
  | nil => simp [memStr]
  | cons y t ih =>
    simp only [memStr, List.mem_cons]
    by_cases h : y = x
    · simp [h]
    · rw [if_neg h, ih]
      constructor
      · exact fun hm => Or.inr hm
      · rintro (rfl | hm)
        · exact absurd rfl h
        · exact hm

theorem memStr_eq_false_iff (x : String) (l : List String) :
    memStr x l = false ↔ x ∉ l := by
  rw [← memStr_iff]
  cases memStr x l <;> simp

theorem mem_of_mem_remStr (x y : String) (l : List String)
    (h : y ∈ remStr x l) : y ∈ l := by
  induction l with
  | nil => simp [remStr] at h
  | cons z t ih =>
    by_cases hz : z = x
    · simp only [remStr, if_pos hz] at h
      exact List.mem_cons_of_mem _ (ih h)
    · simp only [remStr, if_neg hz] at h
      rcases List.mem_cons.mp h with h | h
      · subst h
        exact List.mem_cons_self _ _
      · exact List.mem_cons_of_mem _ (ih h)

theorem not_mem_remStr (x : String) (l : List String) : x ∉ remStr x l := by
  induction l with
  | nil => simp [remStr]
  | cons z t ih =>
    by_cases hz : z = x
    · simp only [remStr, if_pos hz]
      exact ih
    · simp only [remStr, if_neg hz]
      intro hmem
      rcases List.mem_cons.mp hmem with h | h
      · exact hz h.symm
      · exact ih h

theorem getD_mem (l : List String) (i : Nat) (d : String) (h : i < l.length) :
    l.getD i d ∈ l := by
  induction l generalizing i with
  | nil => simp at h
  | cons a t ih =>
    cases i with
    | zero => simp [List.getD]
    | succ j =>
      simp only [List.getD_cons_succ]
      exact List.mem_cons_of_mem _ (ih j (by simpa using h))

/-- Whitespace set of Python `str.strip` with no arguments, restricted to the
ASCII range (space, tab, newline, carriage return, vertical tab, form feed);
transcripts and environment values in this development stay in that range. -/
def isPyWs (c : Char) : Bool :=
  (c == ' ') || (c == Char.ofNat 9) || (c == Char.ofNat 10) || (c == Char.ofNat 13) ||
  (c == Char.ofNat 11) || (c == Char.ofNat 12)

/-- Python `str.strip()`: drop leading and trailing whitespace. -/
def pyStrip (s : String) : String :=
  (((s.toList.dropWhile isPyWs).reverse.dropWhile isPyWs).reverse).asString

/-- Python `str[:n]` slicing by code points, used for the truncated
notification bodies. -/
def pyTrunc (s : String) (n : Nat) : String := (s.toList.take n).asString

theorem pyTrunc_length_le (s : String) (n : Nat) : (pyTrunc s n).length ≤ n := by
  have h : (pyTrunc s n).length = (s.toList.take n).length := rfl
  rw [h, List.length_take]
  exact min_le_left _ _

/-- Name of the numbered credential slot `GOOGLE_API_KEY_{index}`. -/
def slotName (index : Nat) : String := "GOOGLE_API_KEY_" ++ Nat.repr index

/-- Python truthiness of an `os.getenv` result: falsy when unset or empty. -/
def envFalsy (v : Option String) : Bool :=
  match v with
  | none => true
  | some s => s = ""

/-- The numbered-slot scan of `APIKeyManager._load_api_keys`: starting at
index 2, append each truthy slot value not already in the pool and stop at the
first unset or empty slot.  The Python `while True` loop is given explicit
`fuel`; the scan is unaffected by `fuel` beyond the first gap. -/
def loadNumberedKeys (env : String → Option String) : Nat → Nat → List String → List String
  | 0, _, acc => acc
  | fuel + 1, index, acc =>
    match env (slotName index) with
    | none => acc
    | some key =>
      if key = "" then acc
      else loadNumberedKeys env fuel (index + 1)
        (if memStr key acc then acc else acc ++ [key])

/-- The comma-separated `GOOGLE_API_KEYS` pass of `_load_api_keys`: strip each
part, then append it when non-empty and not already present. -/
def addCommaKeys (acc : List String) (parts : List String) : List String :=
  parts.foldl (fun acc part =>
    let key := pyStrip part
    if key = "" then acc else if memStr key acc then acc else acc ++ [key]) acc

/-- `APIKeyManager._load_api_keys`: primary slot, then the numbered slots from
index 2, then the comma-separated list, deduplicating while preserving
order. -/
def load_api_keys (env : String → Option String) (fuel : Nat) : List String :=
  let acc0 :=
    match env "GOOGLE_API_KEY" with
    | none => []
    | some key => if key = "" then [] else [key]
  let acc1 := loadNumberedKeys env fuel 2 acc0
  let keys_list := (env "GOOGLE_API_KEYS").getD ""
  if keys_list = "" then acc1
  else addCommaKeys acc1 (keys_list.splitOn ",")

theorem loadNumberedKeys_mem (env : String → Option String) (k : Nat)
    (hgap : envFalsy (env (slotName k)) = true) :
    ∀ (fuel start : Nat) (acc : List String) (key : String), start ≤ k →
    key ∈ loadNumberedKeys env fuel start acc →
    key ∈ acc ∨ ∃ j, start ≤ j ∧ j < k ∧ env (slotName j) = some key := by
  intro fuel
  induction fuel with
  | zero => intro start acc key _ h; exact Or.inl h
  | succ n ih =>
    intro start acc key hstart h
    cases henv : env (slotName start) with
    | none =>
      simp only [loadNumberedKeys, henv] at h
      exact Or.inl h
    | some v =>
      by_cases hv : v = ""
      · simp only [loadNumberedKeys, henv, if_pos hv] at h
        exact Or.inl h
      · simp only [loadNumberedKeys, henv, if_neg hv] at h
        have hlt : start < k := by
          rcases Nat.lt_or_ge start k with hlt | hge
          · exact hlt
          · have : start = k := Nat.le_antisymm hstart hge
            rw [this] at henv
            rw [henv] at hgap
            simp only [envFalsy] at hgap
            exact absurd (of_decide_eq_true hgap) hv
        rcases ih (start + 1) _ key hlt h with hmem | ⟨j, hj1, hj2, hj3⟩
        · by_cases hdup : memStr v acc = true
          · rw [if_pos hdup] at hmem
            exact Or.inl hmem
          · simp only [Bool.not_eq_true] at hdup
            rw [if_neg (by simp [hdup])] at hmem
            rcases List.mem_append.mp hmem with hmem | hmem
            · exact Or.inl hmem
            · simp only [List.mem_singleton] at hmem
              subst hmem
              exact Or.inr ⟨start, Nat.le_refl _, hlt, henv⟩
        · exact Or.inr ⟨j, Nat.le_of_succ_le hj1, hj2, hj3⟩

theorem addCommaKeys_mem :
    ∀ (parts : List String) (acc : List String) (key : String),
    key ∈ addCommaKeys acc parts →
    key ∈ acc ∨ ∃ part ∈ parts, pyStrip part = key := by
  intro parts
  induction parts with
  | nil => intro acc key h; exact Or.inl h
  | cons p ps ih =>
    intro acc key h
    simp only [addCommaKeys, List.foldl_cons] at h
    rcases ih _ key h with hmem | ⟨part, hp1, hp2⟩
    · by_cases h0 : pyStrip p = ""
      · simp only [h0, if_pos rfl] at hmem
        exact Or.inl hmem
      · rw [if_neg h0] at hmem
        by_cases hdup : memStr (pyStrip p) acc = true
        · rw [if_pos hdup] at hmem
          exact Or.inl hmem
        · simp only [Bool.not_eq_true] at hdup
          rw [if_neg (by simp [hdup])] at hmem
          rcases List.mem_append.mp hmem with hmem | hmem
          · exact Or.inl hmem
          · simp only [List.mem_singleton] at hmem
            exact Or.inr ⟨p, List.mem_cons_self _ _, hmem.symm⟩
    · exact Or.inr ⟨part, List.mem_cons_of_mem _ hp1, hp2⟩

/-- C10: when the numbered slot `GOOGLE_API_KEY_k` (k ≥ 2) is unset or empty,
every key of the loaded pool comes from the primary slot, from a numbered slot
strictly below `k`, or from the comma-separated `GOOGLE_API_KEYS` list — never
from a numbered slot at or above the gap. -/
theorem load_api_keys_stops_at_gap (env : String → Option String) (fuel k : Nat)
    (key : String) (hk : 2 ≤ k) (hgap : envFalsy (env (slotName k)) = true)
    (hmem : key ∈ load_api_keys env fuel) :
    env "GOOGLE_API_KEY" = some key ∨
    (∃ j, 2 ≤ j ∧ j < k ∧ env (slotName j) = some key) ∨
    (∃ part ∈ ((env "GOOGLE_API_KEYS").getD "").splitOn ",", pyStrip part = key) := by
  simp only [load_api_keys] at hmem
  have step1 : key ∈ loadNumberedKeys env fuel 2
      (match env "GOOGLE_API_KEY" with
       | none => []
       | some key => if key = "" then [] else [key]) ∨
      ∃ part ∈ ((env "GOOGLE_API_KEYS").getD "").splitOn ",", pyStrip part = key := by
    by_cases hcl : (env "GOOGLE_API_KEYS").getD "" = ""
    · rw [if_pos hcl] at hmem
      exact Or.inl hmem
    · rw [if_neg hcl] at hmem
      exact addCommaKeys_mem _ _ _ hmem
  rcases step1 with hnum | hcl
  · rcases loadNumberedKeys_mem env k hgap fuel 2 _ key hk hnum with hacc | hslot
    · left
      cases henv : env "GOOGLE_API_KEY" with
      | none => rw [henv] at hacc; simp at hacc
      | some v =>
        rw [henv] at hacc
        have hacc2 : key ∈ (if v = "" then ([] : List String) else [v]) := hacc
        by_cases hv : v = ""
        · rw [if_pos hv] at hacc2; simp at hacc2
        · rw [if_neg hv] at hacc2
          simp only [List.mem_singleton] at hacc2
          rw [hacc2]
    · exact Or.inr (Or.inl hslot)
  · exact Or.inr (Or.inr hcl)

/-- Sample environment with a gap at slot 2: primary key set, slot 2 unset,
slot 3 set.  Used to witness the C10 theorem. -/
def envGapSample : String → Option String := fun name =>
  if name = "GOOGLE_API_KEY" then some "A"
  else if name = "GOOGLE_API_KEY_3" then some "B" else none

/-- Witness for C10: in `envGapSample` the loaded pool contains "A", and the
theorem places it at the primary slot, below the gap, or in the list slot. -/
theorem load_api_keys_stops_at_gap_witness :
    envGapSample "GOOGLE_API_KEY" = some "A" ∨
    (∃ j, 2 ≤ j ∧ j < 2 ∧ envGapSample (slotName j) = some "A") ∨
    (∃ part ∈ ((envGapSample "GOOGLE_API_KEYS").getD "").splitOn ",",
      pyStrip part = "A") :=
  load_api_keys_stops_at_gap envGapSample 10 2 "A" (by decide) (by decide) (by decide)

/-- State of the Python `APIKeyManager`: the ordered key pool, the set of
currently failed keys (kept as a duplicate-free list) and the last selected
key. -/
structure APIKeyManager where
  api_keys : List String
  failed_keys : List String
  current_key : Option String
deriving DecidableEq

/-- `APIKeyManager.get_key`: pick a random key that has not failed recently;
if every key has failed, clear the failed set first and pick from the whole
pool.  `random.choice` is modelled by the `choice` parameter taken modulo the
length of the candidate list.  Returns the chosen key (or `none` for an empty
pool) together with the updated manager state. -/
def get_key (m : APIKeyManager) (choice : Nat) : Option String × APIKeyManager :=
  if m.api_keys = [] then (none, m)
  else
    let available := m.api_keys.filter (fun k => !(memStr k m.failed_keys))
    if available = [] then
      let k := m.api_keys.getD (choice % m.api_keys.length) ""
      (some k, { m with failed_keys := [], current_key := some k })
    else
      let k := available.getD (choice % available.length) ""
      (some k, { m with current_key := some k })

/-- `APIKeyManager.mark_failed`: add the key to the failed set if it belongs
to the pool (Python `set.add`, idempotent). -/
def mark_failed (m : APIKeyManager) (key : String) : APIKeyManager :=
  if memStr key m.api_keys then
    { m with failed_keys :=
        if memStr key m.failed_keys then m.failed_keys else m.failed_keys ++ [key] }
  else m

/-- `APIKeyManager.mark_success`: remove the key from the failed set
(Python `set.discard`, idempotent). -/
def mark_success (m : APIKeyManager) (key : String) : APIKeyManager :=
  { m with failed_keys := remStr key m.failed_keys }

/-- `APIKeyManager.get_remaining_count`: number of pool keys not currently in
the failed set. -/
def get_remaining_count (m : APIKeyManager) : Nat :=
  (m.api_keys.filter (fun k => !(memStr k m.failed_keys))).length

/-- Invariant of the key pool: every failed key is a member of the pool. -/
def PoolInv (m : APIKeyManager) : Prop := ∀ k ∈ m.failed_keys, k ∈ m.api_keys

/-- C7: selecting from an empty pool yields no key; selecting from a non-empty
pool whose failed set covers the whole pool first clears the failed set and
then returns some member of the pool. -/
theorem get_key_empty_and_exhausted_reset :
    (∀ (m : APIKeyManager) (choice : Nat), m.api_keys = [] → (get_key m choice).1 = none) ∧
    (∀ (m : APIKeyManager) (choice : Nat), m.api_keys ≠ [] →
      (∀ k ∈ m.api_keys, k ∈ m.failed_keys) →
      (get_key m choice).2.failed_keys = [] ∧
      ∃ k, (get_key m choice).1 = some k ∧ k ∈ m.api_keys) := by
  constructor
  · intro m choice h
    simp [get_key, h]
  · intro m choice hne hall
    have hav : m.api_keys.filter (fun k => !(memStr k m.failed_keys)) = [] := by
      rw [List.filter_eq_nil_iff]
      intro a ha
      simp [memStr_iff, hall a ha]
    have hlen : choice % m.api_keys.length < m.api_keys.length :=
      Nat.mod_lt _ (List.length_pos.mpr hne)
    refine ⟨?_, ?_⟩
    · simp [get_key, hne, hav]
    · refine ⟨m.api_keys.getD (choice % m.api_keys.length) "", ?_, ?_⟩
      · simp [get_key, hne, hav]
      · exact getD_mem _ _ _ hlen

/-- Witness for the C7 theorem at concrete pools. -/
theorem get_key_empty_and_exhausted_reset_witness :
    (get_key ⟨[], [], none⟩ 0).1 = none ∧
    ((get_key ⟨["k1"], ["k1"], none⟩ 5).2.failed_keys = [] ∧
      ∃ k, (get_key ⟨["k1"], ["k1"], none⟩ 5).1 = some k ∧ k ∈ ["k1"]) :=
  ⟨get_key_empty_and_exhausted_reset.1 ⟨[], [], none⟩ 0 rfl,
   get_key_empty_and_exhausted_reset.2 ⟨["k1"], ["k1"], none⟩ 5 (by decide) (by decide)⟩

/-- C8: every key-pool operation preserves the invariant that the failed set
is a subset of the pool, and none of them changes the pool itself
(`get_remaining_count` is a pure observer in this embedding and mutates
nothing by construction). -/
theorem pool_ops_preserve_inv (m : APIKeyManager) (key : String) (choice : Nat)
    (h : PoolInv m) :
    (PoolInv (get_key m choice).2 ∧ (get_key m choice).2.api_keys = m.api_keys) ∧
    (PoolInv (mark_failed m key) ∧ (mark_failed m key).api_keys = m.api_keys) ∧
    (PoolInv (mark_success m key) ∧ (mark_success m key).api_keys = m.api_keys) := by
  refine ⟨⟨?_, ?_⟩, ⟨?_, ?_⟩, ⟨?_, ?_⟩⟩
  · by_cases he : m.api_keys = []
    · simpa [get_key, he] using h
    · by_cases hav : m.api_keys.filter (fun k => !(memStr k m.failed_keys)) = []
      · simp [get_key, he, hav, PoolInv]
      · simpa [get_key, he, hav] using h
  · by_cases he : m.api_keys = []
    · simp [get_key, he]
    · by_cases hav : m.api_keys.filter (fun k => !(memStr k m.failed_keys)) = []
      · simp [get_key, he, hav]
      · simp [get_key, he, hav]
  · by_cases hk : memStr key m.api_keys = true
    · by_cases hf : memStr key m.failed_keys = true
      · simpa [mark_failed, hk, hf] using h
      · intro x hx
        simp only [mark_failed, hk, if_true, hf, if_false] at hx ⊢
        rcases List.mem_append.mp hx with hx | hx
        · exact h x hx
        · simp only [List.mem_singleton] at hx
          subst hx
          exact (memStr_iff x m.api_keys).mp hk
    · simp only [mark_failed, Bool.not_eq_true] at hk ⊢
      simpa [hk] using h
  · by_cases hk : memStr key m.api_keys = true
    · simp [mark_failed, hk]
    · simp only [Bool.not_eq_true] at hk
      simp [mark_failed, hk]
  · intro x hx
    exact h x (mem_of_mem_remStr key x _ hx)
  · rfl

/-- Witness for the C8 theorem at a concrete manager state. -/
theorem pool_ops_preserve_inv_witness :
    (PoolInv (get_key ⟨["k1", "k2"], ["k1"], none⟩ 0).2 ∧
      (get_key ⟨["k1", "k2"], ["k1"], none⟩ 0).2.api_keys = ["k1", "k2"]) ∧
    (PoolInv (mark_failed ⟨["k1", "k2"], ["k1"], none⟩ "k2") ∧
      (mark_failed ⟨["k1", "k2"], ["k1"], none⟩ "k2").api_keys = ["k1", "k2"]) ∧
    (PoolInv (mark_success ⟨["k1", "k2"], ["k1"], none⟩ "k2") ∧
      (mark_success ⟨["k1", "k2"], ["k1"], none⟩ "k2").api_keys = ["k1", "k2"]) :=
  pool_ops_preserve_inv ⟨["k1", "k2"], ["k1"], none⟩ "k2" 0
    (by simp only [PoolInv]; decide)

/-! Character-to-keycode mapping of `type_text_uinput` (strategy 1). -/

/-- evdev keycode `KEY_LEFTSHIFT`. -/
def KEY_LEFTSHIFT : Nat := 42

/-- The `KEY_MAP` table of `type_text_uinput`: characters typed without
shift, paired with the Linux evdev keycode each `ecodes` constant denotes
(letters a–z, digits, space, and the unshifted punctuation row).  The
apostrophe, backslash, grave and similar characters are written via their
code points. -/
def KEY_MAP : List (Char × Nat) :=
  [('a', 30), ('b', 48), ('c', 46), ('d', 32), ('e', 18),
   ('f', 33), ('g', 34), ('h', 35), ('i', 23), ('j', 36),
   ('k', 37), ('l', 38), ('m', 50), ('n', 49), ('o', 24),
   ('p', 25), ('q', 16), ('r', 19), ('s', 31), ('t', 20),
   ('u', 22), ('v', 47), ('w', 17), ('x', 45), ('y', 21),
   ('z', 44),
   ('0', 11), ('1', 2), ('2', 3), ('3', 4), ('4', 5),
   ('5', 6), ('6', 7), ('7', 8), ('8', 9), ('9', 10),
   (' ', 57), ('.', 52), (',', 51),
   ('-', 12), ('=', 13),
   ('[', 26), (']', 27),
   (';', 39), (Char.ofNat 39, 40),
   ('\\', 43), ('/', 53),
   (Char.ofNat 96, 41)]

/-- The `SHIFT_KEY_MAP` table: shifted symbols paired with the base keycode
pressed together with shift. -/
def SHIFT_KEY_MAP : List (Char × Nat) :=
  [('!', 2), ('@', 3), ('#', 4), ('$', 5), ('%', 6),
   ('^', 7), ('&', 8), ('*', 9), ('(', 10), (')', 11),
   ('_', 12), ('+', 13),
   (Char.ofNat 123, 26), (Char.ofNat 125, 27),
   (':', 39), (Char.ofNat 34, 40),
   ('|', 43), ('?', 53),
   ('~', 41),
   ('<', 51), ('>', 52)]

/-- The `SHIFT_CHARS` set of the source: uppercase letters and the shifted
symbols listed there (note the source omits `~` from this set; the tilde
still gets shift via the `SHIFT_KEY_MAP` branch). -/
def SHIFT_CHARS : List Char :=
  ['A', 'B', 'C', 'D', 'E', 'F', 'G', 'H', 'I', 'J', 'K', 'L', 'M',
   'N', 'O', 'P', 'Q', 'R', 'S', 'T', 'U', 'V', 'W', 'X', 'Y', 'Z',
   '!', '@', '#', '$', '%', '^', '&', '*', '(', ')', '_', '+',
   Char.ofNat 123, Char.ofNat 125, '|', ':', Char.ofNat 34, '<', '>', '?']

/-- The uppercase ASCII letters. -/
def upperLetters : List Char :=
  ['A', 'B', 'C', 'D', 'E', 'F', 'G', 'H', 'I', 'J', 'K', 'L', 'M',
   'N', 'O', 'P', 'Q', 'R', 'S', 'T', 'U', 'V', 'W', 'X', 'Y', 'Z']

/-- The mapped character set named by the specification: ASCII letters
(both cases), digits, space, and the punctuation/shifted-symbol set defined
by the two tables. -/
def mappedChars : List Char :=
  KEY_MAP.map Prod.fst ++ SHIFT_KEY_MAP.map Prod.fst ++ upperLetters

/-- Python `str.lower()` on one character, as `type_text_uinput` applies it
before the `KEY_MAP` lookup.  Faithful on every character whose lowering can
hit the table: ASCII uppercase maps down by 32, and U+212A (the Kelvin sign)
is the single further code point whose Python lowercase is an ASCII letter
(`k`).  All remaining characters are returned unchanged; for those, Python
may lower to a different character, but both the original and the lowered
form lie outside the table, so the lookup result is unaffected. -/
def pyLower (c : Char) : Char :=
  if 65 ≤ c.toNat ∧ c.toNat ≤ 90 then Char.ofNat (c.toNat + 32)
  else if c.toNat = 0x212A then Char.ofNat 0x6B
  else c

/-- Association-list lookup, modelling the Python `dict` built from the
literal tables (keys are distinct, so first-match equals dict lookup). -/
def lookupTab (tab : List (Char × Nat)) (c : Char) : Option Nat :=
  match tab with
  | [] => none
  | p :: rest => if p.1 = c then some p.2 else lookupTab rest c

/-- Resolution of one character in the typing loop of `type_text_uinput`:
shifted-symbol table first (forcing shift), then `KEY_MAP` on the lowered
character with shift taken from membership in `SHIFT_CHARS`; `none` means the
character is skipped. -/
def encodeChar (c : Char) : Option (Nat × Bool) :=
  match lookupTab SHIFT_KEY_MAP c with
  | some k => some (k, true)
  | none =>
    match lookupTab KEY_MAP (pyLower c) with
    | some k => some (k, decide (c ∈ SHIFT_CHARS))
    | none => none

/-- One synthetic key event: keycode and press (true) / release (false),
the `ui.write(e.EV_KEY, code, value)` calls. -/
structure KeyEvent where
  code : Nat
  press : Bool
deriving DecidableEq

/-- Event sequence emitted for one character: shift-wrapped press/release
when shift is needed, plain press/release otherwise, nothing when skipped. -/
def charEvents (c : Char) : List KeyEvent :=
  match encodeChar c with
  | none => []
  | some (k, false) => [⟨k, true⟩, ⟨k, false⟩]
  | some (k, true) =>
      [⟨KEY_LEFTSHIFT, true⟩, ⟨k, true⟩, ⟨k, false⟩, ⟨KEY_LEFTSHIFT, false⟩]

/-- One iteration of the typing loop: state is (events so far, typed count,
skipped count). -/
def uinputStep (acc : List KeyEvent × Nat × Nat) (c : Char) :
    List KeyEvent × Nat × Nat :=
  match encodeChar c with
  | none => (acc.1, acc.2.1, acc.2.2 + 1)
  | some _ => (acc.1 ++ charEvents c, acc.2.1 + 1, acc.2.2)

/-- The full typing loop of `type_text_uinput` over a text: emitted events,
typed count and skipped count. -/
def type_text_uinput_events (text : String) : List KeyEvent × Nat × Nat :=
  text.toList.foldl uinputStep ([], 0, 0)

/-- Reverse lookup of a keycode in a table. -/
def revLookup (tab : List (Char × Nat)) (k : Nat) : Option Char :=
  match tab with
  | [] => none
  | p :: rest => if p.2 = k then some p.1 else revLookup rest k

/-- Uppercasing of an ASCII lowercase letter, for decoding shift+letter. -/
def toUpperAscii (c : Char) : Char :=
  if 97 ≤ c.toNat ∧ c.toNat ≤ 122 then Char.ofNat (c.toNat - 32) else c

/-- US-layout decoding of a (keycode, shift) pair: without shift the
`KEY_MAP` character; with shift the shifted symbol, or the uppercase letter
when the base keycode carries a letter. -/
def decodeKey (k : Nat) (shift : Bool) : Option Char :=
  if shift then
    match revLookup SHIFT_KEY_MAP k with
    | some c => some c
    | none => (revLookup KEY_MAP k).map toUpperAscii
  else revLookup KEY_MAP k

/-- Decoding of the event sequence emitted for a single character. -/
def decodeEvents (evs : List KeyEvent) : Option Char :=
  match evs with
  | [⟨k1, true⟩, ⟨k2, false⟩] => if k1 = k2 then decodeKey k1 false else none
  | [⟨s1, true⟩, ⟨k1, true⟩, ⟨k2, false⟩, ⟨s2, false⟩] =>
      if s1 = KEY_LEFTSHIFT ∧ s2 = KEY_LEFTSHIFT ∧ k1 = k2 then decodeKey k1 true
      else none
  | _ => none

/-- A character is shift-required in the specification's sense: a shifted
symbol of the table or an uppercase letter. -/
def shiftRequired (c : Char) : Bool :=
  decide (c ∈ SHIFT_KEY_MAP.map Prod.fst) || decide (c ∈ upperLetters)

theorem lookupTab_eq_none (tab : List (Char × Nat)) (c : Char)
    (h : ∀ p ∈ tab, p.1 ≠ c) : lookupTab tab c = none := by
  induction tab with
  | nil => rfl
  | cons p rest ih =>
    simp only [lookupTab, if_neg (h p (List.mem_cons_self _ _))]
    exact ih (fun q hq => h q (List.mem_cons_of_mem _ hq))

theorem fst_mem_mapped_of_key (p : Char × Nat) (hp : p ∈ KEY_MAP) :
    p.1 ∈ mappedChars :=
  List.mem_append_left _ (List.mem_append_left _ (List.mem_map_of_mem Prod.fst hp))

theorem fst_mem_mapped_of_shift (p : Char × Nat) (hp : p ∈ SHIFT_KEY_MAP) :
    p.1 ∈ mappedChars :=
  List.mem_append_left _ (List.mem_append_right _ (List.mem_map_of_mem Prod.fst hp))

theorem upper_mem_mapped (c : Char) (hc : c ∈ upperLetters) : c ∈ mappedChars :=
  List.mem_append_right _ hc

theorem mem_upperLetters_of_val (c : Char) (h1 : 65 ≤ c.toNat) (h2 : c.toNat ≤ 90) :
    c ∈ upperLetters := by
  have hall : ∀ n : Nat, n < 91 → 65 ≤ n → Char.ofNat n ∈ upperLetters := by decide
  have h := hall c.toNat (Nat.lt_succ_of_le h2) h1
  rwa [Char.ofNat_toNat] at h

theorem encodeChar_eq_none (c : Char) (hm : c ∉ mappedChars)
    (hkelvin : c ≠ Char.ofNat 0x212A) : encodeChar c = none := by
  have hshift : lookupTab SHIFT_KEY_MAP c = none := by
    apply lookupTab_eq_none
    intro p hp hpc
    exact hm (hpc ▸ fst_mem_mapped_of_shift p hp)
  have hkey : lookupTab KEY_MAP (pyLower c) = none := by
    apply lookupTab_eq_none
    intro p hp hpc
    unfold pyLower at hpc
    by_cases h1 : 65 ≤ c.toNat ∧ c.toNat ≤ 90
    · exact hm (upper_mem_mapped c (mem_upperLetters_of_val c h1.1 h1.2))
    · rw [if_neg h1] at hpc
      by_cases h2 : c.toNat = 0x212A
      · exact hkelvin (by rw [← Char.ofNat_toNat c, h2])
      · rw [if_neg h2] at hpc
        exact hm (hpc ▸ fst_mem_mapped_of_key p hp)
  simp only [encodeChar, hshift, hkey]

theorem uinput_fold (l : List Char) :
    ∀ (evs : List KeyEvent) (t s : Nat),
    l.foldl uinputStep (evs, t, s) =
      (evs ++ (l.map charEvents).flatten,
       t + (l.filter (fun c => (encodeChar c).isSome)).length,
       s + (l.filter (fun c => (encodeChar c).isNone)).length) := by
  induction l with
  | nil => intro evs t s; simp
  | cons c cs ih =>
    intro evs t s
    cases henc : encodeChar c with
    | none =>
      have hev : charEvents c = [] := by simp [charEvents, henc]
      simp only [List.foldl_cons, uinputStep, henc, ih, List.map_cons,
        List.flatten_cons, hev, List.nil_append, List.filter_cons, henc,
        Option.isSome_none, Option.isNone_none, Bool.false_eq_true,
        if_false, if_true, List.length_cons, Prod.mk.injEq]
      exact ⟨trivial, trivial, by omega⟩
    | some kv =>
      simp only [List.foldl_cons, uinputStep, henc, ih, List.map_cons,
        List.flatten_cons, List.filter_cons, henc, Option.isSome_some,
        Option.isNone_some, List.append_assoc, Bool.false_eq_true,
        if_false, if_true, List.length_cons, Prod.mk.injEq]
      exact ⟨trivial, by omega, trivial⟩

/-- C3 counterexample: the Kelvin sign U+212A lies outside the mapped set
(ASCII letters, digits, space, and the defined punctuation set), yet the
device-level strategy does not skip it: Python lowers it to `k`, so the code
emits the press/release of keycode 37 (KEY_K) for it. -/
theorem kelvin_sign_not_skipped :
    (Char.ofNat 0x212A) ∉ mappedChars ∧
    charEvents (Char.ofNat 0x212A) = [⟨37, true⟩, ⟨37, false⟩] := by
  constructor
  · decide
  · decide

/-- C3 amended: every character of the mapped set round-trips through its
emitted event sequence with shift exactly when shift-required; every
character outside the mapped set other than the Kelvin sign U+212A is
skipped (no events); the Kelvin sign is typed as the letter `k`; and the
typing loop concatenates per-character events while counting typed and
skipped characters, never aborting on a skip. -/
theorem char_mapping_round_trip_amended :
    (∀ c ∈ mappedChars,
      decodeEvents (charEvents c) = some c ∧
      ((⟨KEY_LEFTSHIFT, true⟩ : KeyEvent) ∈ charEvents c ↔ shiftRequired c = true)) ∧
    (∀ c : Char, c ∉ mappedChars → c ≠ Char.ofNat 0x212A →
      encodeChar c = none ∧ charEvents c = []) ∧
    charEvents (Char.ofNat 0x212A) = charEvents (Char.ofNat 0x6B) ∧
    (∀ text : String,
      type_text_uinput_events text =
        ((text.toList.map charEvents).flatten,
         (text.toList.filter (fun c => (encodeChar c).isSome)).length,
         (text.toList.filter (fun c => (encodeChar c).isNone)).length)) := by
  refine ⟨by decide, ?_, by decide, ?_⟩
  · intro c hm hk
    have h := encodeChar_eq_none c hm hk
    exact ⟨h, by simp [charEvents, h]⟩
  · intro text
    have h := uinput_fold text.toList [] 0 0
    simpa [type_text_uinput_events] using h

/-- Witness for the amended C3 theorem: the uppercase letter A round-trips
with shift, and the euro sign (outside the mapped set) is skipped. -/
theorem char_mapping_round_trip_amended_witness :
    (decodeEvents (charEvents 'A') = some 'A' ∧
      ((⟨KEY_LEFTSHIFT, true⟩ : KeyEvent) ∈ charEvents 'A' ↔ shiftRequired 'A' = true)) ∧
    (encodeChar (Char.ofNat 0x20AC) = none ∧ charEvents (Char.ofNat 0x20AC) = []) :=
  ⟨char_mapping_round_trip_amended.1 'A' (by decide),
   char_mapping_round_trip_amended.2.1 (Char.ofNat 0x20AC) (by decide) (by decide)⟩

/-! Notification events and the fixed diagnostic strings of the source. -/

/-- Observable events of a run: an API attempt with the selected key, an
error notification, or a done notification (the visual/audio dispatch of
`feedback` is fire-and-forget and carries only the body text). -/
inductive Event where
  | attempt (key : String)
  | errorNote (msg : String)
  | doneNote (msg : String)
deriving DecidableEq

/-- `feedback("error", message)`: body falls back to a fixed string when the
message is empty (Python `message or ...`). -/
def feedbackError (message : String) : Event :=
  Event.errorNote (if message = "" then "Something went wrong" else message)

/-- `feedback("done", message)`: body is the message truncated to 100
characters, or a fixed string when empty. -/
def feedbackDone (message : String) : Event :=
  Event.doneNote (if message = "" then "Done!" else pyTrunc message 100)

def allFailedAtStartMsg : String := "All API keys failed. Please check your configuration."

def noKeyMsg : String := "No API key configured"

def allFailedMsg : String := "All API keys failed or rate limited"

def exhaustMsg (n : Nat) : String := "Failed after " ++ Nat.repr n ++ " attempts"

def typeFailedMsg : String := "Failed to type text"

def emptyMsg : String := "No transcription received"

def injFailMsg : String := "Typing failed. Check uinput permissions."

def apiErrorMsg (s : String) : String := "API Error: " ++ pyTrunc s 100

/-- Selected keys appearing in an event trace, in order. -/
def attemptKeys (tr : List Event) : List String :=
  tr.filterMap (fun e => match e with | .attempt k => some k | _ => none)

/-- Error-notification bodies appearing in an event trace, in order. -/
def errNotes (tr : List Event) : List String :=
  tr.filterMap (fun e => match e with | .errorNote msg => some msg | _ => none)

/-! The injection chain `type_text_wayland` (C4, C5). -/

/-- Outcome of strategy 1 (`type_text_uinput`): the typing loop either
completes, or raises ImportError / PermissionError / another exception. -/
inductive UinputOutcome where
  | success
  | importError
  | permissionError
  | otherError
deriving DecidableEq

/-- Outcome of one `subprocess.run` call on an external tool: the process
exits with a code, the binary is missing (FileNotFoundError), or the bounded
wait expires (TimeoutExpired). -/
inductive SubprocResult where
  | exits (code : Nat)
  | missing
  | timedOut
deriving DecidableEq

/-- Environment of one `type_text_wayland` call: what each external
interaction would do if reached. -/
structure InjectEnv where
  uinput : UinputOutcome
  wtype : SubprocResult
  ydotool : SubprocResult
  wlcopy : SubprocResult
  wtypePaste : SubprocResult
deriving DecidableEq

/-- Timeouts (in seconds) that the source passes to `subprocess.run`. -/
def WTYPE_TIMEOUT : Nat := 5

def YDOTOOL_TIMEOUT : Nat := 5

def WLCOPY_TIMEOUT : Nat := 2

def PASTE_TIMEOUT : Nat := 2

/-- Return of `type_text_uinput`: true on a completed loop, false when any
of its exception handlers fires. -/
def type_text_uinput_ok (u : UinputOutcome) : Bool :=
  match u with
  | .success => true
  | _ => false

/-- A `subprocess.run(capture_output=True, timeout=...)` call wrapped in
`except (FileNotFoundError, TimeoutExpired)`: `some b` means the call
returned with `b = (returncode == 0)`, `none` means the exception was
caught. -/
def runTool (r : SubprocResult) : Option Bool :=
  match r with
  | .exits code => some (decide (code = 0))
  | .missing => none
  | .timedOut => none

/-- Failure of an external tool call in the specification's sense: missing
binary, timeout, or non-zero exit. -/
def toolFails (r : SubprocResult) : Bool :=
  match r with
  | .exits code => decide (code ≠ 0)
  | .missing => true
  | .timedOut => true

/-- Message of the `CalledProcessError` that `subprocess.run(check=True)`
raises when `wl-copy` exits non-zero (Python quoting omitted). -/
def cpeMsg (code : Nat) : String :=
  "Command wl-copy returned non-zero exit status " ++ Nat.repr code ++ "."

/-- Strategy 4 of `type_text_wayland`: `wl-copy` with `check=True` (raising
on a non-zero exit, modelled as `Except.error` with the exception message),
then the paste chord via `wtype` whose return code is never inspected; only
FileNotFoundError and TimeoutExpired are caught and fall through to the
final failure report. -/
def clipboardStep (wlcopy wtypePaste : SubprocResult) :
    Except String Bool × List Event :=
  match wlcopy with
  | .exits code =>
    if code = 0 then
      match wtypePaste with
      | .exits _ => (.ok true, [])
      | _ => (.ok false, [feedbackError injFailMsg])
    else (.error (cpeMsg code), [])
  | _ => (.ok false, [feedbackError injFailMsg])

/-- `type_text_wayland`: the linear fallback chain — uinput, `wtype`,
`ydotool type`, clipboard-and-paste — returning whether some strategy
completed, together with the feedback events it emitted; `Except.error`
models an exception escaping the function. -/
def type_text_wayland (ienv : InjectEnv) (_text : String) :
    Except String Bool × List Event :=
  if type_text_uinput_ok ienv.uinput then (.ok true, [])
  else if runTool ienv.wtype = some true then (.ok true, [])
  else if runTool ienv.ydotool = some true then (.ok true, [])
  else clipboardStep ienv.wlcopy ienv.wtypePaste

theorem runTool_ne_some_true (r : SubprocResult) (h : toolFails r = true) :
    ¬ runTool r = some true := by
  cases r with
  | exits code =>
    simp only [toolFails, decide_eq_true_eq] at h
    simp [runTool, h]
  | missing => simp [runTool]
  | timedOut => simp [runTool]

theorem wayland_falls_to_clipboard (ienv : InjectEnv) (text : String)
    (h1 : type_text_uinput_ok ienv.uinput = false)
    (h2 : toolFails ienv.wtype = true) (h3 : toolFails ienv.ydotool = true) :
    type_text_wayland ienv text = clipboardStep ienv.wlcopy ienv.wtypePaste := by
  simp only [type_text_wayland, h1, Bool.false_eq_true, if_false,
    if_neg (runTool_ne_some_true _ h2), if_neg (runTool_ne_some_true _ h3)]

/-- C4 counterexample: with the first three strategies failing and the
clipboard-copy sub-step exiting non-zero, all four strategies fail in the
claim's sense (tool missing, timeout, permission error, non-zero exit), yet
`type_text_wayland` does not return false: the uncaught CalledProcessError
aborts the chain. -/
theorem inject_chain_counterexample :
    type_text_uinput_ok UinputOutcome.permissionError = false ∧
    toolFails SubprocResult.missing = true ∧
    toolFails SubprocResult.timedOut = true ∧
    toolFails (SubprocResult.exits 1) = true ∧
    (type_text_wayland ⟨.permissionError, .missing, .timedOut, .exits 1, .exits 0⟩ "hi").1
      = Except.error (cpeMsg 1) :=
  ⟨rfl, rfl, rfl, by decide, rfl⟩

/-- C4 amended: the four strategies are tried strictly in order and the
first one that completes ends the chain with result true; failures (tool
missing, non-zero exit, timeout, or any uinput error) advance to the next
strategy, with two deviations in the final strategy: a non-zero exit of the
clipboard-copy sub-step aborts the chain with an uncaught subprocess error
instead of returning false, and a non-zero exit of the paste sub-step still
counts as completion.  When the chain does fail it returns false. -/
theorem inject_chain_amended (ienv : InjectEnv) (text : String) :
    (type_text_uinput_ok ienv.uinput = true →
      type_text_wayland ienv text = (.ok true, [])) ∧
    (type_text_uinput_ok ienv.uinput = false → ienv.wtype = .exits 0 →
      type_text_wayland ienv text = (.ok true, [])) ∧
    (type_text_uinput_ok ienv.uinput = false → toolFails ienv.wtype = true →
      ienv.ydotool = .exits 0 →
      type_text_wayland ienv text = (.ok true, [])) ∧
    (type_text_uinput_ok ienv.uinput = false → toolFails ienv.wtype = true →
      toolFails ienv.ydotool = true → ienv.wlcopy = .exits 0 →
      (∀ c, ienv.wtypePaste = .exits c →
        type_text_wayland ienv text = (.ok true, [])) ∧
      (ienv.wtypePaste = .missing ∨ ienv.wtypePaste = .timedOut →
        type_text_wayland ienv text = (.ok false, [feedbackError injFailMsg]))) ∧
    (type_text_uinput_ok ienv.uinput = false → toolFails ienv.wtype = true →
      toolFails ienv.ydotool = true →
      (∀ c, c ≠ 0 → ienv.wlcopy = .exits c →
        type_text_wayland ienv text = (.error (cpeMsg c), [])) ∧
      (ienv.wlcopy = .missing ∨ ienv.wlcopy = .timedOut →
        type_text_wayland ienv text = (.ok false, [feedbackError injFailMsg]))) := by
  refine ⟨?_, ?_, ?_, ?_, ?_⟩
  · intro h
    simp [type_text_wayland, h]
  · intro h1 h2
    simp [type_text_wayland, h1, h2, runTool]
  · intro h1 h2 h3
    simp [type_text_wayland, h1, if_neg (runTool_ne_some_true _ h2), h3, runTool]
  · intro h1 h2 h3 h4
    rw [wayland_falls_to_clipboard ienv text h1 h2 h3, h4]
    constructor
    · intro c hc
      rw [hc]
      simp [clipboardStep]
    · intro hc
      rcases hc with hc | hc <;> rw [hc] <;> simp [clipboardStep]
  · intro h1 h2 h3
    rw [wayland_falls_to_clipboard ienv text h1 h2 h3]
    constructor
    · intro c hc0 hc
      rw [hc]
      simp [clipboardStep, hc0]
    · intro hc
      rcases hc with hc | hc <;> rw [hc] <;> simp [clipboardStep]

/-- Witness for the amended C4 theorem: scenario D of the specification —
uinput hits a permission error, `wtype` is absent, `ydotool` succeeds, so
the chain reports success. -/
theorem inject_chain_amended_witness :
    type_text_wayland ⟨.permissionError, .missing, .exits 0, .missing, .missing⟩ "hi"
      = (Except.ok true, []) :=
  (inject_chain_amended ⟨.permissionError, .missing, .exits 0, .missing, .missing⟩
    "hi").2.2.1 rfl rfl rfl

/-- C5 counterexample: strategies 1–3 fail, the clipboard copy succeeds and
the paste sub-step exits non-zero — a sub-step failure — yet the strategy
reports success, because the paste call's return code is never checked. -/
theorem clipboard_paste_counterexample :
    toolFails (SubprocResult.exits 1) = true ∧
    type_text_wayland ⟨.importError, .missing, .missing, .exits 0, .exits 1⟩ "x"
      = (Except.ok true, []) :=
  ⟨by decide, rfl⟩

/-- C5 amended: the clipboard strategy runs its two sub-steps under timeouts
of 2 seconds each; a missing tool or timeout in either sub-step makes the
strategy fail, and a non-zero exit of the copy sub-step aborts the chain by
exception (never success) — but a non-zero exit of the paste sub-step is not
detected and the strategy reports success anyway. -/
theorem clipboard_paste_amended (ienv : InjectEnv) (text : String)
    (h1 : type_text_uinput_ok ienv.uinput = false)
    (h2 : toolFails ienv.wtype = true) (h3 : toolFails ienv.ydotool = true) :
    WLCOPY_TIMEOUT = 2 ∧ PASTE_TIMEOUT = 2 ∧
    (ienv.wlcopy = .missing ∨ ienv.wlcopy = .timedOut →
      type_text_wayland ienv text = (.ok false, [feedbackError injFailMsg])) ∧
    (∀ c, c ≠ 0 → ienv.wlcopy = .exits c →
      type_text_wayland ienv text = (.error (cpeMsg c), [])) ∧
    (ienv.wlcopy = .exits 0 →
      (ienv.wtypePaste = .missing ∨ ienv.wtypePaste = .timedOut →
        type_text_wayland ienv text = (.ok false, [feedbackError injFailMsg])) ∧
      (∀ c, ienv.wtypePaste = .exits c →
        type_text_wayland ienv text = (.ok true, []))) := by
  rw [wayland_falls_to_clipboard ienv text h1 h2 h3]
  refine ⟨rfl, rfl, ?_, ?_, ?_⟩
  · intro hc
    rcases hc with hc | hc <;> rw [hc] <;> simp [clipboardStep]
  · intro c hc0 hc
    rw [hc]
    simp [clipboardStep, hc0]
  · intro h4
    rw [h4]
    constructor
    · intro hc
      rcases hc with hc | hc <;> rw [hc] <;> simp [clipboardStep]
    · intro c hc
      rw [hc]
      simp [clipboardStep]

/-- Witness for the amended C5 theorem: with strategies 1–3 failing and the
copy tool missing, the strategy fails and emits the single failure note. -/
theorem clipboard_paste_amended_witness :
    type_text_wayland ⟨.importError, .missing, .missing, .missing, .missing⟩ "x"
      = (Except.ok false, [feedbackError injFailMsg]) :=
  (clipboard_paste_amended ⟨.importError, .missing, .missing, .missing, .missing⟩
    "x" rfl rfl rfl).2.2.1 (Or.inl rfl)

/-! The transcription retry loop `transcribe_audio` (C1, C2, C6, C9). -/

/-- The substring patterns whose presence in the lowered error text makes an
error retryable. -/
def RETRYABLE_CODES : List String :=
  ["500", "502", "503", "504", "529", "599",
   "rate limit", "quota", "overloaded", "timeout"]

/-- Whether `needle` is a prefix of `hay`. -/
def leads : List Char → List Char → Bool
  | [], _ => true
  | _ :: _, [] => false
  | a :: as, b :: bs => decide (a = b) && leads as bs

/-- Whether `needle` occurs as a contiguous substring of `hay`, modelling the
Python `in` test on strings. -/
def hasSub (hay needle : List Char) : Bool :=
  match hay with
  | [] => needle.isEmpty
  | _ :: rest => leads needle hay || hasSub rest needle

/-- The lowered error text `str(e).lower()` as a character list (see
`pyLower` for the scope of the lowering model). -/
def pyLowerStr (s : String) : List Char := s.toList.map pyLower

/-- The retryable classification of `transcribe_audio`: the lowered error
text contains a rate-limit / quota / overload / timeout word or a 5xx-class
status code. -/
def is_retryable (emsg : String) : Bool :=
  RETRYABLE_CODES.any (fun code => hasSub (pyLowerStr emsg) code.toList)

/-- Result of one upload-and-generate API interaction: the response text, or
an exception with its message. -/
inductive ApiResult where
  | success (text : String)
  | error (msg : String)
deriving DecidableEq

/-- Exit path of a `transcribe_audio` run, naming the specification's
outcome taxonomy. -/
inductive TResult where
  | noAudio
  | allKeysFailedAtStart
  | noKeyConfigured
  | typed (text : String)
  | typeFailed (text : String)
  | emptyTranscription
  | fatalError (msg : String)
  | allKeysExhausted
deriving DecidableEq

/-- The `except Exception` block of the retry loop: a retryable error marks
the key failed and either continues (keys remain) or breaks to the
post-loop report; a fatal error returns at once with a truncated
diagnostic.  `Sum.inl` carries the manager into the next iteration,
`Sum.inr` a finished run. -/
def handleApiError (maxRetries : Nat) (key emsg : String) (m : APIKeyManager)
    (acc : List Event) :
    APIKeyManager ⊕ (TResult × APIKeyManager × List Event) :=
  if is_retryable emsg then
    let m2 := mark_failed m key
    if 0 < get_remaining_count m2 then Sum.inl m2
    else Sum.inr (.allKeysExhausted, m2,
      acc ++ [feedbackError allFailedMsg, feedbackError (exhaustMsg maxRetries)])
  else Sum.inr (.fatalError emsg, m, acc ++ [feedbackError (apiErrorMsg emsg)])

/-- The `for attempt in range(max_retries)` loop of `transcribe_audio`.
`fuel` is the number of iterations left, `attempt` the current index (fed to
the choice and API oracles); on fuel exhaustion the post-loop failure report
runs.  A successful response marks the key succeeded, strips the text and
hands it to the injection chain, whose own uncaught exception (non-zero
clipboard-copy exit) lands in the same `except` handler. -/
def transcribe_loop (api : Nat → String → ApiResult) (choose : Nat → Nat)
    (ienv : InjectEnv) (maxRetries : Nat) :
    Nat → Nat → APIKeyManager → List Event → TResult × APIKeyManager × List Event
  | _, 0, m, acc =>
    (.allKeysExhausted, m, acc ++ [feedbackError (exhaustMsg maxRetries)])
  | attempt, fuel + 1, m, acc =>
    match (get_key m (choose attempt)).1, (get_key m (choose attempt)).2 with
    | none, m1 => (.noKeyConfigured, m1, acc ++ [feedbackError noKeyMsg])
    | some key, m1 =>
      let acc1 := acc ++ [Event.attempt key]
      match api attempt key with
      | .success text =>
        let m2 := mark_success m1 key
        if text = "" then
          (.emptyTranscription, m2, acc1 ++ [feedbackError emptyMsg])
        else
          let clean := pyStrip text
          match type_text_wayland ienv clean with
          | (.ok true, evs) => (.typed clean, m2, acc1 ++ evs ++ [feedbackDone clean])
          | (.ok false, evs) =>
              (.typeFailed clean, m2, acc1 ++ evs ++ [feedbackError typeFailedMsg])
          | (.error emsg, evs) =>
            match handleApiError maxRetries key emsg m2 (acc1 ++ evs) with
            | Sum.inl m3 =>
                transcribe_loop api choose ienv maxRetries (attempt + 1) fuel m3 (acc1 ++ evs)
            | Sum.inr r => r
      | .error emsg =>
        match handleApiError maxRetries key emsg m1 acc1 with
        | Sum.inl m3 => transcribe_loop api choose ienv maxRetries (attempt + 1) fuel m3 acc1
        | Sum.inr r => r

/-- `transcribe_audio`: guard on the audio file and on the remaining-count
liveness probe, snapshot the retry budget, then run the loop. -/
def transcribe_audio (api : Nat → String → ApiResult) (choose : Nat → Nat)
    (ienv : InjectEnv) (audioExists : Bool) (m : APIKeyManager) :
    TResult × APIKeyManager × List Event :=
  if audioExists = false then (.noAudio, m, [])
  else if get_remaining_count m = 0 then
    (.allKeysFailedAtStart, m, [feedbackError allFailedAtStartMsg])
  else
    transcribe_loop api choose ienv (get_remaining_count m) 0
      (get_remaining_count m) m []

theorem memStr_append (x : String) (f g : List String) :
    memStr x (f ++ g) = (memStr x f || memStr x g) := by
  induction f with
  | nil => simp [memStr]
  | cons y t ih =>
    by_cases h : y = x
    · simp [memStr, h]
    · simp [memStr, h, ih]

theorem memStr_singleton (x key : String) : memStr x [key] = decide (key = x) := by
  by_cases h : key = x <;> simp [memStr, h]

theorem get_key_of_remaining_pos (m : APIKeyManager) (choice : Nat)
    (h : 0 < get_remaining_count m) :
    ∃ key, (get_key m choice).1 = some key ∧ key ∈ m.api_keys ∧
      memStr key m.failed_keys = false ∧
      (get_key m choice).2 = { m with current_key := some key } := by
  have hav : m.api_keys.filter (fun k => !(memStr k m.failed_keys)) ≠ [] := by
    intro hnil
    rw [get_remaining_count, hnil] at h
    simp at h
  have hpool : m.api_keys ≠ [] := by
    intro hnil
    apply hav
    rw [hnil]
    rfl
  have hlen : choice % (m.api_keys.filter (fun k => !(memStr k m.failed_keys))).length
      < (m.api_keys.filter (fun k => !(memStr k m.failed_keys))).length :=
    Nat.mod_lt _ (List.length_pos.mpr hav)
  have hmemav := getD_mem _ _ "" hlen
  have hsplit := List.mem_filter.mp hmemav
  refine ⟨(m.api_keys.filter (fun k => !(memStr k m.failed_keys))).getD
      (choice % (m.api_keys.filter (fun k => !(memStr k m.failed_keys))).length) "",
    ?_, hsplit.1, by simpa using hsplit.2, ?_⟩
  · simp [get_key, hpool, hav]
  · simp [get_key, hpool, hav]

theorem get_key_some_props (m : APIKeyManager) (choice : Nat) (key : String)
    (h : (get_key m choice).1 = some key) :
    key ∈ m.api_keys ∧ memStr key (get_key m choice).2.failed_keys = false ∧
      (get_key m choice).2.api_keys = m.api_keys := by
  by_cases hpool : m.api_keys = []
  · simp [get_key, hpool] at h
  · by_cases hav : m.api_keys.filter (fun k => !(memStr k m.failed_keys)) = []
    · have hres : (get_key m choice).1 =
          some (m.api_keys.getD (choice % m.api_keys.length) "") := by
        simp [get_key, hpool, hav]
      rw [hres] at h
      have hkey := Option.some.inj h
      have hlen : choice % m.api_keys.length < m.api_keys.length :=
        Nat.mod_lt _ (List.length_pos.mpr hpool)
      refine ⟨hkey ▸ getD_mem _ _ "" hlen, ?_, ?_⟩
      · have : (get_key m choice).2.failed_keys = [] := by simp [get_key, hpool, hav]
        rw [this]
        rfl
      · simp [get_key, hpool, hav]
    · have hlen : choice % (m.api_keys.filter (fun k => !(memStr k m.failed_keys))).length
          < (m.api_keys.filter (fun k => !(memStr k m.failed_keys))).length :=
        Nat.mod_lt _ (List.length_pos.mpr hav)
      have hres : (get_key m choice).1 =
          some ((m.api_keys.filter (fun k => !(memStr k m.failed_keys))).getD
            (choice % (m.api_keys.filter (fun k => !(memStr k m.failed_keys))).length) "") := by
        simp [get_key, hpool, hav]
      rw [hres] at h
      have hkey := Option.some.inj h
      have hsplit := List.mem_filter.mp (hkey ▸ getD_mem _ _ "" hlen)
      refine ⟨hsplit.1, ?_, ?_⟩
      · have : (get_key m choice).2.failed_keys = m.failed_keys := by
          simp [get_key, hpool, hav]
        rw [this]
        simpa using hsplit.2
      · simp [get_key, hpool, hav]

theorem mark_failed_spec (m : APIKeyManager) (key : String)
    (hmem : key ∈ m.api_keys) (hnf : memStr key m.failed_keys = false) :
    mark_failed m key = { m with failed_keys := m.failed_keys ++ [key] } := by
  rw [mark_failed, if_pos ((memStr_iff key m.api_keys).mpr hmem), if_neg]
  simp [hnf]

theorem filter_length_after_fail :
    ∀ (pool f : List String) (key : String), pool.Nodup → key ∈ pool →
    memStr key f = false →
    (pool.filter (fun k => !(memStr k (f ++ [key])))).length + 1 =
      (pool.filter (fun k => !(memStr k f))).length := by
  intro pool
  induction pool with
  | nil => intro f key _ hk; simp at hk
  | cons a t ih =>
    intro f key hnd hk hnf
    have hnd2 := List.nodup_cons.mp hnd
    by_cases ha : a = key
    · subst ha
      have hnewa : memStr a (f ++ [a]) = true := by
        rw [memStr_append, memStr_singleton]
        simp
      have htails : t.filter (fun k => !(memStr k (f ++ [a]))) =
          t.filter (fun k => !(memStr k f)) := by
        apply List.filter_congr
        intro x hx
        have hxa : a ≠ x := fun hh => hnd2.1 (hh ▸ hx)
        rw [memStr_append, memStr_singleton, decide_eq_false hxa]
        simp
      simp [List.filter_cons, hnewa, hnf, htails]
    · have hk2 : key ∈ t := by
        rcases List.mem_cons.mp hk with h | h
        · exact absurd h.symm ha
        · exact h
      have hagree : memStr a (f ++ [key]) = memStr a f := by
        rw [memStr_append, memStr_singleton, decide_eq_false (fun hh => ha hh.symm)]
        simp
      have := ih f key hnd2.2 hk2 hnf
      by_cases hma : memStr a f = true
      · simp [List.filter_cons, hagree, hma]
        omega
      · simp only [Bool.not_eq_true] at hma
        simp [List.filter_cons, hagree, hma]
        omega

theorem transcribe_loop_fatal_eq (api : Nat → String → ApiResult)
    (choose : Nat → Nat) (ienv : InjectEnv) (maxRetries attempt fuel : Nat)
    (m : APIKeyManager) (acc : List Event) (key s : String)
    (hk1 : (get_key m (choose attempt)).1 = some key)
    (hs : api attempt key = ApiResult.error s)
    (hf : is_retryable s = false) :
    transcribe_loop api choose ienv maxRetries attempt (fuel + 1) m acc =
      (TResult.fatalError s, (get_key m (choose attempt)).2,
        acc ++ [Event.attempt key, feedbackError (apiErrorMsg s)]) := by
  simp [transcribe_loop, hk1, hs, handleApiError, hf]

theorem transcribe_loop_empty_eq (api : Nat → String → ApiResult)
    (choose : Nat → Nat) (ienv : InjectEnv) (maxRetries attempt fuel : Nat)
    (m : APIKeyManager) (acc : List Event) (key : String)
    (hk1 : (get_key m (choose attempt)).1 = some key)
    (hs : api attempt key = ApiResult.success "") :
    transcribe_loop api choose ienv maxRetries attempt (fuel + 1) m acc =
      (TResult.emptyTranscription, mark_success (get_key m (choose attempt)).2 key,
        acc ++ [Event.attempt key, feedbackError emptyMsg]) := by
  simp [transcribe_loop, hk1, hs]

theorem transcribe_loop_success_eq (api : Nat → String → ApiResult)
    (choose : Nat → Nat) (ienv : InjectEnv) (maxRetries attempt fuel : Nat)
    (m : APIKeyManager) (acc : List Event) (key t : String) (b : Bool)
    (evs : List Event)
    (hk1 : (get_key m (choose attempt)).1 = some key)
    (hs : api attempt key = ApiResult.success t) (hne : t ≠ "")
    (hw : type_text_wayland ienv (pyStrip t) = (Except.ok b, evs)) :
    transcribe_loop api choose ienv maxRetries attempt (fuel + 1) m acc =
      (if b then TResult.typed (pyStrip t) else TResult.typeFailed (pyStrip t),
        mark_success (get_key m (choose attempt)).2 key,
        acc ++ [Event.attempt key] ++ evs ++
          [if b then feedbackDone (pyStrip t) else feedbackError typeFailedMsg]) := by
  cases b with
  | true => simp [transcribe_loop, hk1, hs, hne, hw]
  | false => simp [transcribe_loop, hk1, hs, hne, hw]

theorem transcribe_loop_retry_eq (api : Nat → String → ApiResult)
    (choose : Nat → Nat) (ienv : InjectEnv) (maxRetries attempt fuel : Nat)
    (m : APIKeyManager) (acc : List Event) (key s : String)
    (hk1 : (get_key m (choose attempt)).1 = some key)
    (hs : api attempt key = ApiResult.error s)
    (hr : is_retryable s = true) :
    transcribe_loop api choose ienv maxRetries attempt (fuel + 1) m acc =
      (if 0 < get_remaining_count (mark_failed (get_key m (choose attempt)).2 key) then
        transcribe_loop api choose ienv maxRetries (attempt + 1) fuel
          (mark_failed (get_key m (choose attempt)).2 key) (acc ++ [Event.attempt key])
      else
        (TResult.allKeysExhausted, mark_failed (get_key m (choose attempt)).2 key,
          acc ++ [Event.attempt key] ++
            [feedbackError allFailedMsg, feedbackError (exhaustMsg maxRetries)])) := by
  by_cases hrem : 0 < get_remaining_count (mark_failed (get_key m (choose attempt)).2 key)
  · rw [if_pos hrem]
    simp [transcribe_loop, hk1, hs, handleApiError, hr, hrem]
  · rw [if_neg hrem]
    simp [transcribe_loop, hk1, hs, handleApiError, hr, hrem]

theorem remaining_mark_failed_of_choice (m : APIKeyManager) (key : String)
    (hnd : m.api_keys.Nodup) (hmem : key ∈ m.api_keys)
    (hnf : memStr key m.failed_keys = false) :
    get_remaining_count
        (mark_failed { m with current_key := some key } key) + 1 =
      get_remaining_count m := by
  rw [mark_failed_spec { m with current_key := some key } key hmem hnf]
  exact filter_length_after_fail m.api_keys m.failed_keys key hnd hmem hnf

theorem transcribe_loop_all_retryable (api : Nat → String → ApiResult)
    (choose : Nat → Nat) (ienv : InjectEnv) (maxRetries : Nat) :
    ∀ (fuel attempt : Nat) (m : APIKeyManager) (acc : List Event),
    (∀ a k, k ∈ m.api_keys → ∃ s, api a k = ApiResult.error s ∧ is_retryable s = true) →
    m.api_keys.Nodup → get_remaining_count m = fuel → 0 < fuel →
    ∃ (ks : List String) (m2 : APIKeyManager),
      transcribe_loop api choose ienv maxRetries attempt fuel m acc =
        (TResult.allKeysExhausted, m2, acc ++ ks.map Event.attempt ++
          [feedbackError allFailedMsg, feedbackError (exhaustMsg maxRetries)]) ∧
      ks.length = fuel ∧ ks.Nodup ∧
      (∀ k ∈ ks, k ∈ m.api_keys ∧ memStr k m.failed_keys = false) := by
  intro fuel
  induction fuel with
  | zero => intro attempt m acc _ _ _ h0; exact absurd h0 (Nat.lt_irrefl 0)
  | succ n ih =>
    intro attempt m acc hapi hnd hrem _
    obtain ⟨key, hk1, hkmem, hknf, hk2⟩ :=
      get_key_of_remaining_pos m (choose attempt) (by omega)
    obtain ⟨s, hs, hr⟩ := hapi attempt key hkmem
    have hmf : mark_failed (get_key m (choose attempt)).2 key =
        { m with failed_keys := m.failed_keys ++ [key], current_key := some key } := by
      rw [hk2]
      exact mark_failed_spec _ key hkmem hknf
    have hremf : get_remaining_count (mark_failed (get_key m (choose attempt)).2 key) = n := by
      have h := remaining_mark_failed_of_choice m key hnd hkmem hknf
      rw [hk2] at hmf ⊢
      omega
    have hstep := transcribe_loop_retry_eq api choose ienv maxRetries attempt n m acc key s
      hk1 hs hr
    cases n with
    | zero =>
      rw [hremf] at hstep
      rw [if_neg (Nat.lt_irrefl 0)] at hstep
      refine ⟨[key], mark_failed (get_key m (choose attempt)).2 key, ?_, rfl,
        List.nodup_singleton key, ?_⟩
      · rw [hstep]
        simp
      · intro k hk
        rw [List.mem_singleton] at hk
        subst hk
        exact ⟨hkmem, hknf⟩
    | succ n2 =>
      rw [hremf, if_pos (Nat.succ_pos n2)] at hstep
      have hapi2 : ∀ a k, k ∈ (mark_failed (get_key m (choose attempt)).2 key).api_keys →
          ∃ s2, api a k = ApiResult.error s2 ∧ is_retryable s2 = true := by
        intro a k hk
        rw [hmf] at hk
        exact hapi a k hk
      have hnd2 : (mark_failed (get_key m (choose attempt)).2 key).api_keys.Nodup := by
        rw [hmf]
        exact hnd
      obtain ⟨ks2, m2, htr, hlen, hnd3, hmem3⟩ := ih (attempt + 1)
        (mark_failed (get_key m (choose attempt)).2 key) (acc ++ [Event.attempt key])
        hapi2 hnd2 hremf (Nat.succ_pos n2)
      refine ⟨key :: ks2, m2, ?_, by simp [hlen], ?_, ?_⟩
      · rw [hstep, htr]
        simp
      · refine List.nodup_cons.mpr ⟨?_, hnd3⟩
        intro hkin
        have h := (hmem3 key hkin).2
        rw [hmf] at h
        simp only at h
        rw [memStr_append, memStr_singleton] at h
        simp at h
      · intro k hk
        rcases List.mem_cons.mp hk with hk | hk
        · subst hk
          exact ⟨hkmem, hknf⟩
        · have h := hmem3 k hk
          rw [hmf] at h
          simp only at h
          rw [memStr_append, memStr_singleton] at h
          constructor
          · exact h.1
          · have h2 := h.2
            cases hmb : memStr k m.failed_keys with
            | false => rfl
            | true => rw [hmb] at h2; simp at h2

theorem attemptKeys_append (a b : List Event) :
    attemptKeys (a ++ b) = attemptKeys a ++ attemptKeys b :=
  List.filterMap_append a b _

theorem errNotes_append (a b : List Event) :
    errNotes (a ++ b) = errNotes a ++ errNotes b :=
  List.filterMap_append a b _

theorem attemptKeys_map_attempt (ks : List String) :
    attemptKeys (ks.map Event.attempt) = ks := by
  induction ks with
  | nil => rfl
  | cons k t ih =>
    simp only [List.map_cons, attemptKeys, List.filterMap_cons] at ih ⊢
    rw [ih]

theorem errNotes_map_attempt (ks : List String) :
    errNotes (ks.map Event.attempt) = [] := by
  induction ks with
  | nil => rfl
  | cons k t ih =>
    simp only [List.map_cons, errNotes, List.filterMap_cons] at ih ⊢
    rw [ih]

theorem errNotes_feedbackError (msg : String) (h : msg ≠ "") :
    errNotes [feedbackError msg] = [msg] := by
  simp only [feedbackError, if_neg h, errNotes, List.filterMap_cons, List.filterMap_nil]

theorem apiErrorMsg_ne_empty (s : String) : apiErrorMsg s ≠ "" := by
  intro h
  have hlen := congrArg String.length h
  rw [apiErrorMsg] at hlen
  rw [String.length_append] at hlen
  have h11 : ("API Error: " : String).length = 11 := rfl
  rw [h11] at hlen
  simp at hlen

theorem apiErrorMsg_length_le (s : String) : (apiErrorMsg s).length ≤ 111 := by
  rw [apiErrorMsg, String.length_append]
  have h11 : ("API Error: " : String).length = 11 := rfl
  rw [h11]
  have := pyTrunc_length_le s 100
  omega

theorem remaining_of_no_failed (m : APIKeyManager) (hfe : m.failed_keys = []) :
    get_remaining_count m = m.api_keys.length := by
  rw [get_remaining_count]
  have : m.api_keys.filter (fun k => !(memStr k m.failed_keys)) = m.api_keys := by
    apply List.filter_eq_self.mpr
    intro a _
    rw [hfe]
    rfl
  rw [this]

/-- C1: for a pool of N ≥ 1 distinct keys with no key yet failed, if every
attempt raises a retryable-classified error then `transcribe_audio` makes
exactly N attempts (the retry budget being the remaining-count snapshot,
here N), each selecting a key of the pool not previously marked failed in
that run (the attempted keys are pairwise distinct), and terminates in the
all-keys-exhausted outcome. -/
theorem transcribe_all_retryable_exhausts (api : Nat → String → ApiResult)
    (choose : Nat → Nat) (ienv : InjectEnv) (m : APIKeyManager)
    (hne : m.api_keys ≠ []) (hnd : m.api_keys.Nodup) (hfe : m.failed_keys = [])
    (hapi : ∀ a k, k ∈ m.api_keys →
      ∃ s, api a k = ApiResult.error s ∧ is_retryable s = true) :
    (transcribe_audio api choose ienv true m).1 = TResult.allKeysExhausted ∧
    (attemptKeys (transcribe_audio api choose ienv true m).2.2).length
      = m.api_keys.length ∧
    (attemptKeys (transcribe_audio api choose ienv true m).2.2).Nodup ∧
    (∀ k ∈ attemptKeys (transcribe_audio api choose ienv true m).2.2,
      k ∈ m.api_keys) := by
  have hrem := remaining_of_no_failed m hfe
  have hpos : 0 < get_remaining_count m := by
    rw [hrem]
    exact List.length_pos.mpr hne
  obtain ⟨ks, m2, htr, hlen, hndks, hmem⟩ :=
    transcribe_loop_all_retryable api choose ienv (get_remaining_count m)
      (get_remaining_count m) 0 m [] hapi hnd rfl hpos
  have haudio : transcribe_audio api choose ienv true m =
      transcribe_loop api choose ienv (get_remaining_count m) 0
        (get_remaining_count m) m [] := by
    rw [transcribe_audio]
    rw [if_neg (by simp)]
    rw [if_neg (by omega)]
  rw [haudio, htr]
  have hkeys : attemptKeys ([] ++ ks.map Event.attempt ++
      [feedbackError allFailedMsg, feedbackError (exhaustMsg (get_remaining_count m))])
      = ks := by
    rw [attemptKeys_append, attemptKeys_append, attemptKeys_map_attempt]
    have h2 : attemptKeys [feedbackError allFailedMsg,
        feedbackError (exhaustMsg (get_remaining_count m))] = [] := rfl
    rw [h2]
    simp [attemptKeys]
  refine ⟨rfl, ?_, ?_, ?_⟩
  · simp only [hkeys]
    omega
  · simp only [hkeys]
    exact hndks
  · simp only [hkeys]
    intro k hk
    exact (hmem k hk).1

/-- Witness for the C1 theorem: a two-key pool where every attempt is rate
limited with a 503 status. -/
theorem transcribe_all_retryable_exhausts_witness :
    (transcribe_audio (fun _ _ => ApiResult.error "503") (fun _ => 0)
      ⟨.importError, .missing, .missing, .missing, .missing⟩ true
      ⟨["k1", "k2"], [], none⟩).1 = TResult.allKeysExhausted ∧
    (attemptKeys (transcribe_audio (fun _ _ => ApiResult.error "503") (fun _ => 0)
      ⟨.importError, .missing, .missing, .missing, .missing⟩ true
      ⟨["k1", "k2"], [], none⟩).2.2).length
      = (APIKeyManager.mk ["k1", "k2"] [] none).api_keys.length ∧
    (attemptKeys (transcribe_audio (fun _ _ => ApiResult.error "503") (fun _ => 0)
      ⟨.importError, .missing, .missing, .missing, .missing⟩ true
      ⟨["k1", "k2"], [], none⟩).2.2).Nodup ∧
    (∀ k ∈ attemptKeys (transcribe_audio (fun _ _ => ApiResult.error "503") (fun _ => 0)
      ⟨.importError, .missing, .missing, .missing, .missing⟩ true
      ⟨["k1", "k2"], [], none⟩).2.2, k ∈ (APIKeyManager.mk ["k1", "k2"] [] none).api_keys) :=
  transcribe_all_retryable_exhausts (fun _ _ => ApiResult.error "503") (fun _ => 0)
    ⟨.importError, .missing, .missing, .missing, .missing⟩ ⟨["k1", "k2"], [], none⟩
    (by decide) (by decide) rfl
    (fun a k _ => ⟨"503", rfl, by decide⟩)

/-- C6: on any attempt whose error is classified fatal (not retryable), the
loop terminates immediately with the fatal-error outcome: the trace gains
only this attempt's selection event and one truncated diagnostic — no
further attempt happens regardless of the remaining retry budget `fuel` —
and the key used on the attempt is not in the failed set afterwards. -/
theorem fatal_error_stops_loop (api : Nat → String → ApiResult)
    (choose : Nat → Nat) (ienv : InjectEnv) (maxRetries attempt fuel : Nat)
    (m : APIKeyManager) (acc : List Event) (key s : String)
    (hk1 : (get_key m (choose attempt)).1 = some key)
    (hs : api attempt key = ApiResult.error s)
    (hf : is_retryable s = false) :
    transcribe_loop api choose ienv maxRetries attempt (fuel + 1) m acc =
      (TResult.fatalError s, (get_key m (choose attempt)).2,
        acc ++ [Event.attempt key, feedbackError (apiErrorMsg s)]) ∧
    memStr key ((get_key m (choose attempt)).2).failed_keys = false :=
  ⟨transcribe_loop_fatal_eq api choose ienv maxRetries attempt fuel m acc key s hk1 hs hf,
   (get_key_some_props m (choose attempt) key hk1).2.1⟩

/-- Witness for the C6 theorem: one key, an authentication-style error, a
large remaining budget; the run stops after the single attempt. -/
theorem fatal_error_stops_loop_witness :
    transcribe_loop (fun _ _ => ApiResult.error "401 unauthorized") (fun _ => 0)
      ⟨.importError, .missing, .missing, .missing, .missing⟩ 1 0 (4 + 1)
      ⟨["k1"], [], none⟩ [] =
      (TResult.fatalError "401 unauthorized",
        (get_key ⟨["k1"], [], none⟩ 0).2,
        [Event.attempt "k1", feedbackError (apiErrorMsg "401 unauthorized")]) ∧
    memStr "k1" ((get_key ⟨["k1"], [], none⟩ 0).2).failed_keys = false := by
  have h := fatal_error_stops_loop (fun _ _ => ApiResult.error "401 unauthorized")
    (fun _ => 0) ⟨.importError, .missing, .missing, .missing, .missing⟩ 1 0 4
    ⟨["k1"], [], none⟩ [] "k1" "401 unauthorized" (by decide) rfl (by decide)
  simpa using h

/-- C9 counterexample: the first attempt (within the budget of 1) returns
the non-empty response "  stop.\n", yet the run does not produce the trimmed
text: strategies 1-3 fail and the clipboard-copy sub-step exits non-zero, so
the CalledProcessError lands in the API except handler and the run ends in
the fatal-error outcome instead of typing "stop.". -/
theorem trimmed_text_counterexample :
    (transcribe_audio (fun _ _ => ApiResult.success "  stop.\n") (fun _ => 0)
      ⟨.importError, .missing, .missing, .exits 1, .exits 0⟩ true
      ⟨["k1"], [], none⟩).1 = TResult.fatalError (cpeMsg 1) ∧
    ∀ text : String,
      (transcribe_audio (fun _ _ => ApiResult.success "  stop.\n") (fun _ => 0)
        ⟨.importError, .missing, .missing, .exits 1, .exits 0⟩ true
        ⟨["k1"], [], none⟩).1 ≠ TResult.typed text := by
  have h1 : (transcribe_audio (fun _ _ => ApiResult.success "  stop.\n") (fun _ => 0)
      ⟨.importError, .missing, .missing, .exits 1, .exits 0⟩ true
      ⟨["k1"], [], none⟩).1 = TResult.fatalError (cpeMsg 1) := by decide
  refine ⟨h1, ?_⟩
  intro text h
  rw [h1] at h
  exact TResult.noConfusion h

/-- C9 amended: if the attempt's response is non-empty and the injection
chain returns rather than raises (it raises only when, after strategies 1-3
fail, the clipboard-copy sub-step exits non-zero), the run produces exactly
the response text with leading and trailing whitespace stripped, hands it to
the injection chain, issues no further attempt, and leaves the key used
outside the failed set (marked succeeded). -/
theorem success_attempt_trims_and_stops (api : Nat → String → ApiResult)
    (choose : Nat → Nat) (ienv : InjectEnv) (maxRetries attempt fuel : Nat)
    (m : APIKeyManager) (acc : List Event) (key t : String) (b : Bool)
    (evs : List Event)
    (hk1 : (get_key m (choose attempt)).1 = some key)
    (hs : api attempt key = ApiResult.success t) (hne : t ≠ "")
    (hw : type_text_wayland ienv (pyStrip t) = (Except.ok b, evs)) :
    transcribe_loop api choose ienv maxRetries attempt (fuel + 1) m acc =
      (if b then TResult.typed (pyStrip t) else TResult.typeFailed (pyStrip t),
        mark_success (get_key m (choose attempt)).2 key,
        acc ++ [Event.attempt key] ++ evs ++
          [if b then feedbackDone (pyStrip t) else feedbackError typeFailedMsg]) ∧
    memStr key (mark_success (get_key m (choose attempt)).2 key).failed_keys = false :=
  ⟨transcribe_loop_success_eq api choose ienv maxRetries attempt fuel m acc key t b evs
      hk1 hs hne hw,
   (memStr_eq_false_iff _ _).mpr (not_mem_remStr key _)⟩

/-- Witness for the C9 theorem: scenario C of the specification — the
response "  stop.\n" is injected as "stop." after one attempt. -/
theorem success_attempt_trims_and_stops_witness :
    transcribe_loop (fun _ _ => ApiResult.success "  stop.\n") (fun _ => 0)
      ⟨.success, .missing, .missing, .missing, .missing⟩ 1 0 (0 + 1)
      ⟨["k1"], [], none⟩ [] =
      (TResult.typed "stop.",
        mark_success (get_key ⟨["k1"], [], none⟩ 0).2 "k1",
        [Event.attempt "k1", feedbackDone "stop."]) ∧
    memStr "k1" (mark_success (get_key ⟨["k1"], [], none⟩ 0).2 "k1").failed_keys
      = false := by
  have h := success_attempt_trims_and_stops (fun _ _ => ApiResult.success "  stop.\n")
    (fun _ => 0) ⟨.success, .missing, .missing, .missing, .missing⟩ 1 0 0
    ⟨["k1"], [], none⟩ [] "k1" "  stop.\n" true [] (by decide) rfl (by decide) rfl
  have hstrip : pyStrip "  stop.\n" = "stop." := by decide
  rw [hstrip] at h
  simpa using h

theorem exhaustMsg_ne_empty (n : Nat) : exhaustMsg n ≠ "" := by
  intro h
  have hlen := congrArg String.length h
  rw [exhaustMsg, String.length_append, String.length_append] at hlen
  have h13 : ("Failed after " : String).length = 13 := rfl
  rw [h13] at hlen
  simp at hlen

/-- C2 counterexample: a single rate-limited key is a terminal failure (the
retry budget is exhausted), yet the run emits TWO error notifications — one
when the last key fails inside the loop, a second from the post-loop report
— so "exactly one error notification per terminal failure path" is false. -/
theorem double_error_note_counterexample :
    errNotes (transcribe_audio (fun _ _ => ApiResult.error "503 overloaded")
      (fun _ => 0) ⟨.importError, .missing, .missing, .missing, .missing⟩ true
      ⟨["k1"], [], none⟩).2.2 = [allFailedMsg, exhaustMsg 1] ∧
    (errNotes (transcribe_audio (fun _ _ => ApiResult.error "503 overloaded")
      (fun _ => 0) ⟨.importError, .missing, .missing, .missing, .missing⟩ true
      ⟨["k1"], [], none⟩).2.2).length = 2 := by
  constructor
  · decide
  · decide

/-- C2 amended: on the fatal-API-error and empty-transcription terminal
paths exactly one error notification is emitted, the fatal diagnostic being
truncated to at most 111 characters; on the retry-budget-exhausted path and
on the all-injection-strategies-failed path exactly two error notifications
are emitted (loop report plus post-loop report, and injector report plus
orchestrator report, respectively). -/
theorem error_note_counts_amended :
    (∀ (api : Nat → String → ApiResult) (choose : Nat → Nat) (ienv : InjectEnv)
      (maxRetries attempt fuel : Nat) (m : APIKeyManager) (acc : List Event)
      (key s : String),
      (get_key m (choose attempt)).1 = some key →
      api attempt key = ApiResult.error s → is_retryable s = false →
      errNotes (transcribe_loop api choose ienv maxRetries attempt (fuel + 1) m acc).2.2
        = errNotes acc ++ [apiErrorMsg s] ∧ (apiErrorMsg s).length ≤ 111) ∧
    (∀ (api : Nat → String → ApiResult) (choose : Nat → Nat) (ienv : InjectEnv)
      (maxRetries attempt fuel : Nat) (m : APIKeyManager) (acc : List Event)
      (key : String),
      (get_key m (choose attempt)).1 = some key →
      api attempt key = ApiResult.success "" →
      errNotes (transcribe_loop api choose ienv maxRetries attempt (fuel + 1) m acc).2.2
        = errNotes acc ++ [emptyMsg]) ∧
    (∀ (api : Nat → String → ApiResult) (choose : Nat → Nat) (ienv : InjectEnv)
      (maxRetries attempt fuel : Nat) (m : APIKeyManager) (acc : List Event)
      (key t : String),
      (get_key m (choose attempt)).1 = some key →
      api attempt key = ApiResult.success t → t ≠ "" →
      type_text_uinput_ok ienv.uinput = false → toolFails ienv.wtype = true →
      toolFails ienv.ydotool = true →
      (ienv.wlcopy = SubprocResult.missing ∨ ienv.wlcopy = SubprocResult.timedOut ∨
        (ienv.wlcopy = SubprocResult.exits 0 ∧
          (ienv.wtypePaste = SubprocResult.missing ∨
            ienv.wtypePaste = SubprocResult.timedOut))) →
      errNotes (transcribe_loop api choose ienv maxRetries attempt (fuel + 1) m acc).2.2
        = errNotes acc ++ [injFailMsg, typeFailedMsg]) ∧
    (∀ (api : Nat → String → ApiResult) (choose : Nat → Nat) (ienv : InjectEnv)
      (m : APIKeyManager),
      m.api_keys ≠ [] → m.api_keys.Nodup → m.failed_keys = [] →
      (∀ a k, k ∈ m.api_keys →
        ∃ s, api a k = ApiResult.error s ∧ is_retryable s = true) →
      errNotes (transcribe_audio api choose ienv true m).2.2
        = [allFailedMsg, exhaustMsg m.api_keys.length]) := by
  refine ⟨?_, ?_, ?_, ?_⟩
  · intro api choose ienv maxRetries attempt fuel m acc key s hk1 hs hf
    rw [transcribe_loop_fatal_eq api choose ienv maxRetries attempt fuel m acc key s
      hk1 hs hf]
    refine ⟨?_, apiErrorMsg_length_le s⟩
    have hsplit : acc ++ [Event.attempt key, feedbackError (apiErrorMsg s)] =
        acc ++ [Event.attempt key] ++ [feedbackError (apiErrorMsg s)] := by simp
    rw [hsplit, errNotes_append, errNotes_append,
      errNotes_feedbackError _ (apiErrorMsg_ne_empty s)]
    have hattempt : errNotes [Event.attempt key] = [] := rfl
    rw [hattempt]
    simp
  · intro api choose ienv maxRetries attempt fuel m acc key hk1 hs
    rw [transcribe_loop_empty_eq api choose ienv maxRetries attempt fuel m acc key
      hk1 hs]
    have hsplit : acc ++ [Event.attempt key, feedbackError emptyMsg] =
        acc ++ [Event.attempt key] ++ [feedbackError emptyMsg] := by simp
    rw [hsplit, errNotes_append, errNotes_append,
      errNotes_feedbackError _ (by decide)]
    have hattempt : errNotes [Event.attempt key] = [] := rfl
    rw [hattempt]
    simp
  · intro api choose ienv maxRetries attempt fuel m acc key t hk1 hs hne h1 h2 h3 h4
    have hw : type_text_wayland ienv (pyStrip t) =
        (Except.ok false, [feedbackError injFailMsg]) := by
      rw [wayland_falls_to_clipboard ienv (pyStrip t) h1 h2 h3]
      rcases h4 with h4 | h4 | ⟨h4, h5⟩
      · rw [h4]; rfl
      · rw [h4]; rfl
      · rw [h4]
        rcases h5 with h5 | h5 <;> rw [h5] <;> rfl
    rw [transcribe_loop_success_eq api choose ienv maxRetries attempt fuel m acc key t
      false [feedbackError injFailMsg] hk1 hs hne hw]
    simp only [if_false, Bool.false_eq_true]
    rw [errNotes_append, errNotes_append, errNotes_append]
    have hattempt : errNotes [Event.attempt key] = [] := rfl
    rw [hattempt, errNotes_feedbackError _ (by decide),
      errNotes_feedbackError _ (by decide)]
    simp
  · intro api choose ienv m hne hnd hfe hapi
    have hrem := remaining_of_no_failed m hfe
    have hpos : 0 < get_remaining_count m := by
      rw [hrem]
      exact List.length_pos.mpr hne
    obtain ⟨ks, m2, htr, hlen, hndks, hmem⟩ :=
      transcribe_loop_all_retryable api choose ienv (get_remaining_count m)
        (get_remaining_count m) 0 m [] hapi hnd rfl hpos
    have haudio : transcribe_audio api choose ienv true m =
        transcribe_loop api choose ienv (get_remaining_count m) 0
          (get_remaining_count m) m [] := by
      rw [transcribe_audio]
      rw [if_neg (by simp)]
      rw [if_neg (by omega)]
    rw [haudio, htr]
    have hsplit : ([] : List Event) ++ ks.map Event.attempt ++
        [feedbackError allFailedMsg, feedbackError (exhaustMsg (get_remaining_count m))] =
        ks.map Event.attempt ++ [feedbackError allFailedMsg] ++
          [feedbackError (exhaustMsg (get_remaining_count m))] := by simp
    rw [hsplit]
    rw [errNotes_append, errNotes_append, errNotes_map_attempt,
      errNotes_feedbackError _ (by decide),
      errNotes_feedbackError _ (exhaustMsg_ne_empty _), hrem]
    simp

/-- Witness for the amended C2 theorem: the fatal path emits exactly the one
truncated diagnostic. -/
theorem error_note_counts_amended_witness :
    errNotes (transcribe_loop (fun _ _ => ApiResult.error "401 unauthorized")
      (fun _ => 0) ⟨.importError, .missing, .missing, .missing, .missing⟩ 1 0 (4 + 1)
      ⟨["k1"], [], none⟩ []).2.2 = [apiErrorMsg "401 unauthorized"] ∧
    (apiErrorMsg "401 unauthorized").length ≤ 111 := by
  have h := error_note_counts_amended.1 (fun _ _ => ApiResult.error "401 unauthorized")
    (fun _ => 0) ⟨.importError, .missing, .missing, .missing, .missing⟩ 1 0 4
    ⟨["k1"], [], none⟩ [] "k1" "401 unauthorized" (by decide) rfl (by decide)
  simpa using h

end SttTyper

